import Mathlib

/-!
Verification of the rendering layer (rekall-core/rekall/plugins/renderers/base_objects.py)
and the kernel-module reconciliation plugin (volatility/plugins/linux/check_modules.py)
against their natural-language specification.

The Python source is shallowly embedded: each renderer method becomes a Lean
function on an explicit model of the typed values it consumes; fallible code
returns `Except`; Python strings are Lean `String`s manipulated through their
underlying character lists (Python indexes and measures strings by character,
exactly as `String.data` does).
-/

/-! ### Python string primitives -/

/-- The NUL character, Python "\x00". -/
def nulChar : Char := Char.ofNat 0

/-- Character-count length of a string; Python `len(s)` counts characters. -/
def pyLen (s : String) : Nat := s.data.length

/-- Python slicing `s[:n]` by characters. -/
def pyTake (n : Nat) (s : String) : String := String.mk (s.data.take n)

/-- Python truthiness combinator `a or b` for strings: the empty string is falsy. -/
def pyOr (a b : String) : String := if a = "" then b else a

theorem strData_inj {a b : String} (h : a.data = b.data) : a = b := by
  cases a; cases b; exact congrArg String.mk h

/-- Core of Python `str.splitlines` (restricted to the newline character, the
only line break the rendering layer produces): accumulates the current line in
reverse; a trailing newline does not produce a final empty line, and the empty
string yields no lines at all. -/
def splitLinesCore : List Char → List Char → List (List Char)
  | [], cur => if cur = [] then [] else [cur.reverse]
  | c :: rest, cur =>
    if c = '\n' then cur.reverse :: splitLinesCore rest []
    else splitLinesCore rest (c :: cur)

/-- Python `s.splitlines()`. -/
def pySplitLines (s : String) : List String := (splitLinesCore s.data []).map String.mk

/-- Core of Python `str.split(sep)` for a one-character separator: unlike
`splitlines`, a trailing separator yields a trailing empty piece and the empty
string yields one empty piece. -/
def pySplitCore (sep : Char) : List Char → List Char → List (List Char)
  | [], cur => [cur.reverse]
  | c :: rest, cur =>
    if c = sep then cur.reverse :: pySplitCore sep rest []
    else pySplitCore sep rest (c :: cur)

theorem pySplitCore_head (sep : Char) :
    ∀ (cs acc : List Char),
      (pySplitCore sep cs acc).headD [] = acc.reverse ++ cs.takeWhile (fun c => c != sep) := by
  intro cs
  induction cs with
  | nil => intro acc; simp [pySplitCore]
  | cons c rest ih =>
    intro acc
    by_cases h : c = sep
    · simp [pySplitCore, h, List.takeWhile]
    · simp only [pySplitCore, if_neg h, ih, List.reverse_cons, List.takeWhile]
      have hb : (c != sep) = true := by simpa using h
      simp [hb]

theorem splitLinesCore_no_newline :
    ∀ (cs acc : List Char), (∀ c ∈ cs, c ≠ '\n') →
      splitLinesCore cs acc =
        if acc.reverse ++ cs = [] then [] else [acc.reverse ++ cs] := by
  intro cs
  induction cs with
  | nil => intro acc _; simp [splitLinesCore]
  | cons c rest ih =>
    intro acc h
    have hc : c ≠ '\n' := h c (List.mem_cons_self c rest)
    have hrest : ∀ x ∈ rest, x ≠ '\n' := fun x hx => h x (List.mem_cons_of_mem c hx)
    simp only [splitLinesCore, if_neg hc, ih (c :: acc) hrest, List.reverse_cons]
    have h1 : acc.reverse ++ [c] ++ rest ≠ [] := by simp
    have h2 : acc.reverse ++ c :: rest ≠ [] := by simp
    rw [if_neg h1, if_neg h2]
    simp

/-! ### A presentation cell

Modelled from the spec (the `Cell` class lives in `rekall/ui/text.py`, which is
not under src/): a Cell is an ordered list of text lines, never absent and
empty when there is no content; the width and highlight fields play no part in
the claims and are omitted. -/

structure Cell where
  lines : List String
deriving DecidableEq

/-- Construction of a Cell from a text value splits it into lines. -/
def Cell.ofText (s : String) : Cell := ⟨pySplitLines s⟩

/-- Python exceptions that the modelled code can raise. -/
inductive PyError where
  | valueError
  | attributeError
deriving DecidableEq

/-! ### The lexicographic orders used by Python sorts

Python `sorted` on tuples compares component-wise: strictly less on the first
component, or equal first components and less-or-equal on the rest; strings
compare lexicographically by code point. Python `sorted` is a stable sort, so
over a total preorder its output coincides with insertion sort, which is what
the embedding uses. -/

/-- Lexicographic strict comparison of character lists by code point. -/
def strLtB : List Char → List Char → Bool
  | [], [] => false
  | [], _ :: _ => true
  | _ :: _, [] => false
  | a :: as, b :: bs => if a < b then true else if b < a then false else strLtB as bs

theorem strLtB_trans : ∀ as bs cs, strLtB as bs = true → strLtB bs cs = true →
    strLtB as cs = true := by
  intro as
  induction as with
  | nil =>
    intro bs cs h1 h2
    cases bs with
    | nil => simp [strLtB] at h1
    | cons b bs =>
      cases cs with
      | nil => simp [strLtB] at h2
      | cons c cs => simp [strLtB]
  | cons a as ih =>
    intro bs cs h1 h2
    cases bs with
    | nil => simp [strLtB] at h1
    | cons b bs =>
      cases cs with
      | nil => simp [strLtB] at h2
      | cons c cs =>
        simp only [strLtB] at h1 h2 ⊢
        by_cases hab : a < b
        · by_cases hbc : b < c
          · simp [lt_trans hab hbc]
          · by_cases hcb : c < b
            · simp [hbc, hcb] at h2
            · have hbceq : b = c := le_antisymm (not_lt.mp hcb) (not_lt.mp hbc)
              subst hbceq
              simp [hab]
        · by_cases hba : b < a
          · simp [hab, hba] at h1
          · have habeq : a = b := le_antisymm (not_lt.mp hba) (not_lt.mp hab)
            subst habeq
            by_cases hac : a < c
            · simp [hac]
            · by_cases hca : c < a
              · simp [hac, hca] at h2
              · have haceq : a = c := le_antisymm (not_lt.mp hca) (not_lt.mp hac)
                subst haceq
                simp only [lt_irrefl, if_false, ite_self] at h1 h2 ⊢
                exact ih _ _ h1 h2

theorem strLtB_connex : ∀ as bs, strLtB as bs = false → strLtB bs as = false → as = bs := by
  intro as
  induction as with
  | nil =>
    intro bs h1 _
    cases bs with
    | nil => rfl
    | cons b bs => simp [strLtB] at h1
  | cons a as ih =>
    intro bs h1 h2
    cases bs with
    | nil => simp [strLtB] at h2
    | cons b bs =>
      simp only [strLtB] at h1 h2
      by_cases hab : a < b
      · simp [hab] at h1
      · by_cases hba : b < a
        · simp [hab, hba] at h2
        · have habeq : a = b := le_antisymm (not_lt.mp hba) (not_lt.mp hab)
          subst habeq
          simp only [lt_irrefl, if_false, ite_self] at h1 h2
          rw [ih _ h1 h2]

/-- Python strict `<` on strings. -/
def strLt (a b : String) : Prop := strLtB a.data b.data = true

/-- Python `<=` on strings. -/
def strLe (a b : String) : Prop := strLt a b ∨ a = b

instance : DecidableRel strLt := fun a b =>
  inferInstanceAs (Decidable (strLtB a.data b.data = true))

instance : DecidableRel strLe := fun a b =>
  inferInstanceAs (Decidable (strLt a b ∨ a = b))

theorem strLt_trans : ∀ {a b c : String}, strLt a b → strLt b c → strLt a c :=
  fun h1 h2 => strLtB_trans _ _ _ h1 h2

theorem strLt_connex {a b : String} (h1 : ¬ strLt a b) (h2 : ¬ strLt b a) : a = b := by
  apply strData_inj
  exact strLtB_connex _ _ (by simpa [strLt] using h1) (by simpa [strLt] using h2)

theorem strLe_trans : ∀ {a b c : String}, strLe a b → strLe b c → strLe a c := by
  intro a b c h1 h2
  rcases h1 with h1 | h1
  · rcases h2 with h2 | h2
    · exact Or.inl (strLt_trans h1 h2)
    · exact Or.inl (h2 ▸ h1)
  · exact h1 ▸ h2

theorem strLe_total (a b : String) : strLe a b ∨ strLe b a := by
  by_cases h1 : strLt a b
  · exact Or.inl (Or.inl h1)
  · by_cases h2 : strLt b a
    · exact Or.inr (Or.inl h2)
    · exact Or.inl (Or.inr (strLt_connex h1 h2))

/-- Python tuple comparison, first component strict, rest by a given order. -/
def lexLe {α β : Type} (ltA : α → α → Prop) (leB : β → β → Prop) (x y : α × β) : Prop :=
  ltA x.1 y.1 ∨ (x.1 = y.1 ∧ leB x.2 y.2)

theorem lexLe_trans {α β : Type} {ltA : α → α → Prop} {leB : β → β → Prop}
    (ha : ∀ x y z : α, ltA x y → ltA y z → ltA x z)
    (hb : ∀ x y z : β, leB x y → leB y z → leB x z) :
    ∀ x y z : α × β, lexLe ltA leB x y → lexLe ltA leB y z → lexLe ltA leB x z := by
  intro x y z h1 h2
  rcases h1 with h1 | ⟨e1, l1⟩
  · rcases h2 with h2 | ⟨e2, _⟩
    · exact Or.inl (ha _ _ _ h1 h2)
    · exact Or.inl (e2 ▸ h1)
  · rcases h2 with h2 | ⟨e2, l2⟩
    · exact Or.inl (e1 ▸ h2)
    · exact Or.inr ⟨e1.trans e2, hb _ _ _ l1 l2⟩

theorem lexLe_total {α β : Type} {ltA : α → α → Prop} {leB : β → β → Prop}
    (hc : ∀ x y : α, ¬ ltA x y → ¬ ltA y x → x = y)
    (ht : ∀ x y : β, leB x y ∨ leB y x) :
    ∀ x y : α × β, lexLe ltA leB x y ∨ lexLe ltA leB y x := by
  intro x y
  by_cases h1 : ltA x.1 y.1
  · exact Or.inl (Or.inl h1)
  · by_cases h2 : ltA y.1 x.1
    · exact Or.inr (Or.inl h2)
    · rcases ht x.2 y.2 with h | h
      · exact Or.inl (Or.inr ⟨hc _ _ h1 h2, h⟩)
      · exact Or.inr (Or.inr ⟨(hc _ _ h1 h2).symm, h⟩)

/-- The order `sorted(maskmap.items())` sorts by: pairs of flag name and mask. -/
def itemLe (x y : String × Nat) : Prop := lexLe strLt (· ≤ ·) x y

instance : DecidableRel itemLe := fun x y =>
  inferInstanceAs (Decidable (strLt x.1 y.1 ∨ (x.1 = y.1 ∧ x.2 ≤ y.2)))

instance : IsTrans (String × Nat) itemLe :=
  ⟨@lexLe_trans String Nat strLt (· ≤ ·)
    (fun _ _ _ a b => strLt_trans a b) (fun _ _ _ a b => Nat.le_trans a b)⟩

instance : IsTotal (String × Nat) itemLe :=
  ⟨@lexLe_total String Nat strLt (· ≤ ·)
    (fun _ _ h1 h2 => strLt_connex h1 h2) Nat.le_total⟩

/-- Comparison of the tail of a struct field triple: name, then representation. -/
def strPairLe (x y : String × String) : Prop := lexLe strLt strLe x y

theorem strPairLe_trans {x y z : String × String} (h1 : strPairLe x y) (h2 : strPairLe y z) :
    strPairLe x z :=
  @lexLe_trans String String strLt strLe
    (fun _ _ _ a b => strLt_trans a b) (fun _ _ _ a b => strLe_trans a b) x y z h1 h2

theorem strPairLe_total : ∀ x y : String × String, strPairLe x y ∨ strPairLe y x :=
  @lexLe_total String String strLt strLe
    (fun _ _ h1 h2 => strLt_connex h1 h2) strLe_total

/-- The order `fields.sort()` sorts by: triples of relative offset, member name
and representation, exactly as Python compares those tuples. -/
def fieldLe (x y : Int × String × String) : Prop := lexLe (· < ·) strPairLe x y

instance : DecidableRel strPairLe := fun x y =>
  inferInstanceAs (Decidable (strLt x.1 y.1 ∨ (x.1 = y.1 ∧ strLe x.2 y.2)))

instance : DecidableRel fieldLe := fun x y =>
  inferInstanceAs (Decidable ((x.1 : Int) < y.1 ∨ (x.1 = y.1 ∧ strPairLe x.2 y.2)))

instance : IsTrans (Int × String × String) fieldLe :=
  ⟨@lexLe_trans Int (String × String) (· < ·) strPairLe
    (fun _ _ _ a b => lt_trans a b) (fun _ _ _ a b => strPairLe_trans a b)⟩

instance : IsTotal (Int × String × String) fieldLe :=
  ⟨@lexLe_total Int (String × String) (· < ·) strPairLe
    (fun _ _ h1 h2 => le_antisymm (not_lt.mp h2) (not_lt.mp h1)) strPairLe_total⟩

/-! ### The typed-value model

The rendering layer consumes opaque typed values from the memory-object model.
Each constructor carries exactly the data the corresponding renderer reads:
a decoded string keeps its text, a Flags value its raw integer and named mask
map, a pointer its numeric value, declared target type and (already
dereferenced) target, a struct its repr line, offset and member table.
The null sentinel compares equal to None whatever its nominal type is. -/

/-- A member value as seen through an accessor: whether it compares equal to
the null sentinel (`obj == None`), its `obj_offset` attribute when it has one,
and its `repr` text. -/
structure RObj where
  isNone : Bool
  objOffset : Option Int
  reprText : String
deriving DecidableEq

/-- One struct member: its name, the decoded value `getattr(target, k)` and the
undecoded form `target.m(k)`. -/
structure SMember where
  name : String
  decoded : RObj
  undecoded : RObj
deriving DecidableEq

/-- A struct instance: its `repr` line, its own `obj_offset`, and its member
table in declaration order. -/
structure StructTarget where
  reprText : String
  objOffset : Int
  members : List SMember
deriving DecidableEq

inductive TypedValue where
  | nullObj (nominalType : String)
  | stringV (text : String)
  | flagsV (value : Nat) (maskmap : List (String × Nat))
  | pointerV (value : Nat) (targetType : String) (target : TypedValue)
  | structV (target : StructTarget)
  | nativeV (value : Nat)
deriving DecidableEq

/-- Equality against None: only the null sentinel compares equal to None. -/
def TypedValue.isNoneEq : TypedValue → Bool
  | .nullObj _ => true
  | _ => false

/-! ### BaseObjectTextRenderer and StringTextRenderer (src lines 39 to 63) -/

/-- BaseObjectTextRenderer.render_full: `text.Cell(unicode(target.v()))` for a
native value. -/
def BaseObjectTextRenderer.render_full (v : Nat) : Cell := Cell.ofText (toString v)

/-- StringTextRenderer.render_full: `utils.SmartUnicode(target).split("\x00")[0] or u""`
wrapped in a Cell. -/
def StringTextRenderer.render_full (target : String) : Cell :=
  Cell.ofText (pyOr (String.mk ((pySplitCore nulChar target.data []).headD [])) "")

/-- StringTextRenderer.render_value is the alias `render_value = render_full`. -/
def StringTextRenderer.render_value (target : String) : Cell :=
  StringTextRenderer.render_full target

/-- StringTextRenderer.render_compact is the alias `render_compact = render_full`. -/
def StringTextRenderer.render_compact (target : String) : Cell :=
  StringTextRenderer.render_full target

/-! ### NoneObjectTextRenderer and NoneTextRenderer (src lines 66 to 75) -/

/-- Verbosity levels of the render entry point (spec sections 4.2 and 6). -/
inductive Verbosity where
  | address
  | full
  | compact
  | value
  | row
deriving DecidableEq

/-- NoneObjectTextRenderer.render_row: `return text.Cell("-")`; the style
keyword is swallowed by the catch-all keyword parameter, so the override
answers every requested verbosity. -/
def NoneObjectTextRenderer.render_row (_target : TypedValue) : Cell := Cell.ofText "-"

/-- NoneTextRenderer inherits render_row from NoneObjectTextRenderer and only
changes the claimed type identifier to NoneType. -/
def NoneTextRenderer.render_row (target : TypedValue) : Cell :=
  NoneObjectTextRenderer.render_row target

/-- Modelled from the spec: the render entry point of the framework
(text.TextObjectRenderer.render_row, in rekall/ui/text.py, not under src/)
receives the requested verbosity and dispatches it to the resolved renderer;
a renderer that overrides the row entry handles every verbosity through that
override. The registry resolves the nominal type NoneType to NoneTextRenderer
and every other null sentinel to NoneObjectTextRenderer, both of which
override the row entry. -/
def renderNullSentinel (_style : Verbosity) (nominalType : String) : Cell :=
  if nominalType = "NoneType" then NoneTextRenderer.render_row (.nullObj nominalType)
  else NoneObjectTextRenderer.render_row (.nullObj nominalType)

/-! ### FlagsTextRenderer (src lines 132 to 156) -/

/-- The iteration order `sorted(target.maskmap.items())` of the flag
definition: Python sorts the name-mask pairs lexicographically; `sorted` is a
stable sort, so over this total preorder it coincides with insertion sort. -/
def flagItems (maskmap : List (String × Nat)) : List (String × Nat) :=
  List.insertionSort itemLe maskmap

/-- The flag names accumulated by FlagsTextRenderer.render_full: every sorted
name whose mask intersects the value (`if value & v: flags.append(k)`). -/
def flagNames (value : Nat) (maskmap : List (String × Nat)) : List String :=
  ((flagItems maskmap).filter (fun kv => (value &&& kv.2) != 0)).map Prod.fst

/-- The joined text `u', '.join(flags)` of FlagsTextRenderer.render_full. -/
def FlagsTextRenderer.fullText (value : Nat) (maskmap : List (String × Nat)) : String :=
  String.intercalate ", " (flagNames value maskmap)

/-- FlagsTextRenderer.render_full: the Cell of the comma-joined selected flag
names. -/
def FlagsTextRenderer.render_full (value : Nat) (maskmap : List (String × Nat)) : Cell :=
  Cell.ofText (FlagsTextRenderer.fullText value maskmap)

/-- Attribute names defined on FlagsTextRenderer and its ancestors: the class
itself defines renders_type, render_full, render_value and render_compact
(src lines 132 to 156), BaseObjectTextRenderer adds render_address (src lines
39 to 52), and the spec describes the base renderer interface as the render
methods plus the session and renderer context (spec section 6). No class in
the chain defines a method named v: that accessor belongs to the target
objects of the memory-object model, not to renderers. -/
def flagsRendererChainAttrs : List String :=
  ["renders_type", "render_full", "render_value", "render_compact",
   "render_address", "render_row", "render_header", "format_address",
   "session", "renderer"]

/-- FlagsTextRenderer.render_value executes `text.Cell(unicode(self.v()))`
where self is the renderer object itself, not the target: since no class in
the renderer chain defines v (see flagsRendererChainAttrs), the attribute
lookup raises AttributeError on every call, and the target argument is never
read. -/
def FlagsTextRenderer.render_value (_value : Nat) (_maskmap : List (String × Nat)) :
    Except PyError Cell :=
  Except.error PyError.attributeError

/-- FlagsTextRenderer.render_compact: takes the first line of the full render,
elides it to 39 characters plus an ellipsis when it is longer than 40
characters, and renders a dash when the full render has no lines at all. -/
def FlagsTextRenderer.render_compact (value : Nat) (maskmap : List (String × Nat)) : Cell :=
  match (FlagsTextRenderer.render_full value maskmap).lines with
  | [] => Cell.ofText "-"
  | elided :: _ =>
    if 40 < pyLen elided then Cell.ofText (pyTake 39 elided ++ "…")
    else Cell.ofText elided

/-! ### StructTextRenderer (src lines 254 to 323) -/

/-- The object a member k contributes to the field listing: the decoded
`getattr(target, k)`, replaced by the undecoded `target.m(k)` when the decoded
value compares equal to None (`if obj == None: obj = target.m(k)`). -/
def structChosen (m : SMember) : RObj :=
  if m.decoded.isNone then m.undecoded else m.decoded

/-- One entry of the `fields` list built by StructTextRenderer.render_full:
`(getattr(obj, "obj_offset", target.obj_offset) - target.obj_offset, k,
utils.SmartUnicode(repr(obj)))`. -/
def structField (base : Int) (m : SMember) : Int × String × String :=
  ((structChosen m).objOffset.getD base - base, m.name, (structChosen m).reprText)

/-- The running maximum `width_name = max(width_name, len(k))` over all
members, starting from 0. -/
def structWidthName (members : List SMember) : Nat :=
  members.foldl (fun w m => max w (pyLen m.name)) 0

/-- The `fields` list after `fields.sort()`: Python sorts the offset, name,
representation triples lexicographically; `sort` is stable, so over this total
preorder it coincides with insertion sort. -/
def structFieldsSorted (base : Int) (members : List SMember) : List (Int × String × String) :=
  List.insertionSort fieldLe (members.map (structField base))

/-- Python hex formatting `"%02X" % o`: upper-case digits zero-padded to an
overall width of two, the sign included in the width for a negative value. -/
def hex02X (o : Int) : String :=
  let digits := fun (n : Nat) => (Nat.toDigits 16 n).map Char.toUpper
  let pad := fun (w : Nat) (cs : List Char) => List.replicate (w - cs.length) '0' ++ cs
  if o < 0 then String.mk ('-' :: pad 1 (digits o.natAbs))
  else String.mk (pad 2 (digits o.toNat))

/-- One output line `u"  0x%02X %s%s %s" % (offset, k, " " * (width_name -
len(k)), v)` of the struct full render. -/
def structFormatField (width : Nat) (f : Int × String × String) : String :=
  "  0x" ++ hex02X f.1 ++ " " ++ f.2.1 ++
    String.mk (List.replicate (width - pyLen f.2.1) ' ') ++ " " ++ f.2.2

/-- StructTextRenderer.render_full: the repr line of the struct followed by one
line per member, the members sorted by offset relative to the struct. -/
def StructTextRenderer.render_full (target : StructTarget) : Cell :=
  Cell.ofText (target.reprText ++ "\n" ++
    String.intercalate "\n"
      ((structFieldsSorted target.objOffset target.members).map
        (structFormatField (structWidthName target.members))) ++ "\n")

/-- One column of a struct column specification; only the presence and value of
the cname key matter to the modelled code (`column.get("cname")`). -/
structure ColumnSpec where
  cname : Option String
deriving DecidableEq

/-- Modelled from the spec: text.TextTable (rekall/ui/text.py, not under src/)
is built from the column specification and the rendering context and renders
the header row and per-instance rows; its construction receives no instance of
the rendered type, so it cannot validate accessors against targets. -/
structure TextTable where
  columns : List ColumnSpec
deriving DecidableEq

/-- Python truthiness of `self.columns`: None and the empty list are falsy. -/
def columnsTruthy : Option (List ColumnSpec) → Bool
  | some (_ :: _) => true
  | _ => false

/-- The renderer state produced by StructTextRenderer.__init__. -/
structure StructRendererState where
  columns : Option (List ColumnSpec)
  table : Option TextTable
deriving DecidableEq

/-- StructTextRenderer.__init__: pop the columns keyword (defaulting to the
class attribute COLUMNS, which is None), and build a TextTable from it exactly
when it is truthy. Construction performs no further validation. -/
def StructTextRenderer.init (columns : Option (List ColumnSpec)) : StructRendererState :=
  { columns := columns,
    table := if columnsTruthy columns then some ⟨columns.getD []⟩ else none }

/-- Modelled from the spec: the dynamic member access `getattr(target, cname)`
is the field-accessor interface of the memory-object model, which returns the
decoded member value, or the null sentinel when the compound type has no such
member (spec sections 3 and 9). -/
def structGetattr (members : List SMember) (name : String) : RObj :=
  match members.find? (fun m => m.name == name) with
  | some m => m.decoded
  | none => { isNone := true, objOffset := none, reprText := "-" }

/-- The two shapes a compact struct render can take: the repr fallback Cell, or
one table row built from the extracted column values. -/
inductive CompactResult where
  | reprCell (c : Cell)
  | row (values : List RObj)
deriving DecidableEq

/-- StructTextRenderer.render_repr: `text.Cell(repr(target))`. -/
def StructTextRenderer.render_repr (target : StructTarget) : Cell :=
  Cell.ofText target.reprText

/-- The column loop of StructTextRenderer.render_compact: for each column take
`column.get("cname")`, raise ValueError when it is absent or empty
(`if not cname`), otherwise extract `getattr(target, cname)`. -/
def collectColumnValues (target : StructTarget) : List ColumnSpec → Except PyError (List RObj)
  | [] => Except.ok []
  | c :: rest =>
    if c.cname.getD "" = "" then Except.error PyError.valueError
    else
      match collectColumnValues target rest with
      | Except.error e => Except.error e
      | Except.ok vs => Except.ok (structGetattr target.members (c.cname.getD "") :: vs)

/-- StructTextRenderer.render_compact: without a table fall back to the repr
render; with a table run the column loop and build the row from the extracted
values. -/
def StructTextRenderer.render_compact (st : StructRendererState) (target : StructTarget) :
    Except PyError CompactResult :=
  match st.table with
  | none => Except.ok (CompactResult.reprCell (StructTextRenderer.render_repr target))
  | some _ =>
    match collectColumnValues target (st.columns.getD []) with
    | Except.error e => Except.error e
    | Except.ok vs => Except.ok (CompactResult.row vs)

/-! ### PointerTextRenderer (src lines 179 to 201) and the registry

The registry resolution `ObjectRenderer.ForTarget(target_obj, ...)` followed by
`.render_full(target_obj)` is modelled as one total dispatch function: resolve
the renderer for the type of the value and invoke its full render. The pointer
constructor carries its dereferenced target, so the recursion of pointer
delegation is structural. -/

def registryRenderFull : TypedValue → Cell
  | .nullObj _ => Cell.ofText "-"
  | .stringV s => StringTextRenderer.render_full s
  | .flagsV v mm => FlagsTextRenderer.render_full v mm
  | .pointerV _ _ tgt => if tgt.isNoneEq then Cell.ofText "-" else registryRenderFull tgt
  | .structV t => StructTextRenderer.render_full t
  | .nativeV v => BaseObjectTextRenderer.render_full v

/-- PointerTextRenderer.render_full: dereference, compare the target against
None and render a dash for the null sentinel, otherwise resolve the registry
renderer for the dereferenced target and invoke its full render on it. The
pointer arguments are its numeric value, its declared target type and the
result of `target.deref()`. -/
def PointerTextRenderer.render_full (_pvalue : Nat) (_targetType : String)
    (target : TypedValue) : Cell :=
  if target.isNoneEq then Cell.ofText "-"
  else registryRenderFull target

/-! ### CheckModules (volatility/plugins/linux/check_modules.py)

The plugin walks the module_kset kobject list, filters it, recovers each
surviving kobject's containing struct module via container-of, and reconciles
against the lsmod module list. The collaborators (profile constants, list
traversal, container_of, lsmod) belong to the memory-object model; their
outputs are the fields of the structures below. -/

/-- A struct module as an object of the memory image: its identity (the object
offset container-of resolves to) and its self-reported name. Membership of the
lsmod set is tested on this whole object, not on the name alone. -/
structure LinuxModule where
  objOffset : Nat
  name : String
deriving DecidableEq

/-- One kobject of the module_kset list: the string its name pointer
dereferences to (empty when unnamed), its kref reference counter, and the
struct module that `basic.container_of(kobj, "module", "mkobj")` recovers. -/
structure KObject where
  name : String
  refCounter : Int
  container : LinuxModule
deriving DecidableEq

/-- CheckModules.get_kset_modules: iterate the kobjects of module_kset and
yield those with a truthy name (`if kobj.name`). -/
def CheckModules.get_kset_modules (module_kset : List KObject) : List KObject :=
  module_kset.filter (fun kobj => kobj.name != "")

/-- One row of the CheckModules report table: module address, module name,
reference count and the known flag. -/
structure ReportRow where
  module_addr : Nat
  module_name : String
  refcount : Int
  known : Bool
deriving DecidableEq

/-- CheckModules.render: build the independent module set from lsmod, then for
each named kset kobject skip reference counts below 3, recover the container
module, and emit its address, name, reference count, and membership of the
container object in the module set. -/
def CheckModules.render (module_kset : List KObject) (module_list : List LinuxModule) :
    List ReportRow :=
  let modules := module_list
  (CheckModules.get_kset_modules module_kset).filterMap (fun kobj =>
    if kobj.refCounter < 3 then none
    else
      some { module_addr := kobj.container.objOffset,
             module_name := kobj.container.name,
             refcount := kobj.refCounter,
             known := decide (kobj.container ∈ modules) })

/-- The read-only state a CheckModules run consumes: the kset reachable from
the module_kset constant and the module list the lsmod traversal yields. -/
structure MemoryImage where
  module_kset : List KObject
  module_list : List LinuxModule
deriving DecidableEq

/-- One full run of the plugin over an image: it emits the report rows and
returns the image it ran on, which it can only read. -/
def CheckModules.run (img : MemoryImage) : List ReportRow × MemoryImage :=
  (CheckModules.render img.module_kset img.module_list, img)

/-! ### Claim theorems -/

/-- C1: for every TypedValue that is the null sentinel, the full, compact and
value renders each produce a Cell whose content is the fixed placeholder "-",
regardless of the underlying nominal type. -/
theorem C1_null_sentinel_renders_dash (nominalType : String) :
    renderNullSentinel Verbosity.full nominalType = Cell.ofText "-" ∧
    renderNullSentinel Verbosity.compact nominalType = Cell.ofText "-" ∧
    renderNullSentinel Verbosity.value nominalType = Cell.ofText "-" := by
  unfold renderNullSentinel NoneTextRenderer.render_row NoneObjectTextRenderer.render_row
  by_cases h : nominalType = "NoneType" <;> simp [h]

/-- C3: for every pointer whose dereferenced target is not the null sentinel,
the pointer's full render equals the full render produced by resolving the
registry renderer for the dereferenced target and invoking its full render
directly on the target; the registry resolves a pointer value to this very
renderer. -/
theorem C3_pointer_delegation (pvalue : Nat) (targetType : String) (target : TypedValue)
    (h : target.isNoneEq = false) :
    PointerTextRenderer.render_full pvalue targetType target = registryRenderFull target ∧
    registryRenderFull (TypedValue.pointerV pvalue targetType target) =
      PointerTextRenderer.render_full pvalue targetType target := by
  constructor
  · simp [PointerTextRenderer.render_full, h]
  · simp [registryRenderFull, PointerTextRenderer.render_full]

theorem C3_pointer_delegation_witness :
    (TypedValue.nativeV 5).isNoneEq = false ∧
    PointerTextRenderer.render_full 4096 "int" (TypedValue.nativeV 5) =
      registryRenderFull (TypedValue.nativeV 5) ∧
    registryRenderFull (TypedValue.nativeV 5) = Cell.ofText "5" :=
  ⟨rfl, (C3_pointer_delegation 4096 "int" (TypedValue.nativeV 5) rfl).1, rfl⟩

/-- C4: on a kernel object set of three entries with reference counts 1, 4, 5
and names "", "mod_a", "mod_b", with the independent module list holding only
mod_a, the report is exactly two rows: the unnamed entry and the entry with
reference count below 3 are skipped, mod_a is known and mod_b is not. -/
theorem C4_reconciliation_scenario :
    CheckModules.get_kset_modules
        [⟨"", 1, ⟨4096, ""⟩⟩, ⟨"mod_a", 4, ⟨8192, "mod_a"⟩⟩, ⟨"mod_b", 5, ⟨12288, "mod_b"⟩⟩] =
      [⟨"mod_a", 4, ⟨8192, "mod_a"⟩⟩, ⟨"mod_b", 5, ⟨12288, "mod_b"⟩⟩] ∧
    CheckModules.render
        [⟨"", 1, ⟨4096, ""⟩⟩, ⟨"mod_a", 4, ⟨8192, "mod_a"⟩⟩, ⟨"mod_b", 5, ⟨12288, "mod_b"⟩⟩]
        [⟨8192, "mod_a"⟩] =
      [⟨8192, "mod_a", 4, true⟩, ⟨12288, "mod_b", 5, false⟩] := by
  constructor <;> decide

/-- C9: running the reconciliation twice over the same unmodified image yields
identical report rows; the run returns the image unchanged, so no state leaks
from one run into the next. -/
theorem C9_reconciliation_idempotent (img : MemoryImage) :
    (CheckModules.run img).2 = img ∧
    CheckModules.run ((CheckModules.run img).2) = CheckModules.run img :=
  ⟨rfl, rfl⟩

/-- C10: FlagsTextRenderer.render_value never reads the target value: it is a
constant function of its target arguments, and because no attribute v exists
on the renderer class chain it raises AttributeError for every input instead
of returning a Cell with the raw flags value. -/
theorem C10_flags_render_value_raises :
    (∀ value maskmap, FlagsTextRenderer.render_value value maskmap =
      Except.error PyError.attributeError) ∧
    (∀ v1 m1 v2 m2, FlagsTextRenderer.render_value v1 m1 =
      FlagsTextRenderer.render_value v2 m2) ∧
    flagsRendererChainAttrs.contains "v" = false :=
  ⟨fun _ _ => rfl, fun _ _ _ _ => rfl, by decide⟩

theorem collectColumnValues_error (target : StructTarget) :
    ∀ cols : List ColumnSpec, (∃ c ∈ cols, c.cname.getD "" = "") →
      collectColumnValues target cols = Except.error PyError.valueError := by
  intro cols
  induction cols with
  | nil => rintro ⟨c, hc, _⟩; exact absurd hc (List.not_mem_nil c)
  | cons c rest ih =>
    rintro ⟨d, hd, hbad⟩
    by_cases h : c.cname.getD "" = ""
    · simp [collectColumnValues, h]
    · rcases List.mem_cons.mp hd with rfl | hd2
      · exact absurd hbad h
      · have := ih ⟨d, hd2, hbad⟩
        simp [collectColumnValues, h, this]

theorem collectColumnValues_ok (target : StructTarget) :
    ∀ cols : List ColumnSpec, (∀ c ∈ cols, c.cname.getD "" ≠ "") →
      collectColumnValues target cols =
        Except.ok (cols.map (fun c => structGetattr target.members (c.cname.getD ""))) := by
  intro cols
  induction cols with
  | nil => intro _; rfl
  | cons c rest ih =>
    intro h
    have hc : c.cname.getD "" ≠ "" := h c (List.mem_cons_self c rest)
    have hrest := ih (fun d hd => h d (List.mem_cons_of_mem c hd))
    simp [collectColumnValues, hc, hrest]

/-- C2 counterexample: a renderer constructed with a malformed column entry
(one that does not specify cname) is constructed successfully, with a table,
and it is render_compact that raises the ValueError, on every row: the claim
that such errors surface at construction and never during per-row compact
rendering is false on the code. -/
theorem C2_counterexample :
    StructTextRenderer.init (some [⟨none⟩]) =
      { columns := some [⟨none⟩], table := some ⟨[⟨none⟩]⟩ } ∧
    StructTextRenderer.render_compact (StructTextRenderer.init (some [⟨none⟩]))
        ⟨"[struct foo]", 0, []⟩ =
      Except.error PyError.valueError :=
  ⟨rfl, rfl⟩

/-- C2 amended: construction never validates the column specification; a
malformed column entry (missing or empty cname) makes render_compact raise
ValueError on every instance it renders, while a well-formed specification
never raises during compact rendering: a column naming an accessor that is
missing on the rendered type simply extracts the null sentinel per row. -/
theorem C2_config_errors_amended (cols : List ColumnSpec) (target : StructTarget)
    (hne : cols ≠ []) :
    ((∃ c ∈ cols, c.cname.getD "" = "") →
      StructTextRenderer.render_compact (StructTextRenderer.init (some cols)) target =
        Except.error PyError.valueError) ∧
    ((∀ c ∈ cols, c.cname.getD "" ≠ "") →
      StructTextRenderer.render_compact (StructTextRenderer.init (some cols)) target =
        Except.ok (CompactResult.row
          (cols.map (fun c => structGetattr target.members (c.cname.getD ""))))) := by
  obtain ⟨c0, rest0, rfl⟩ : ∃ c0 rest0, cols = c0 :: rest0 := by
    cases cols with
    | nil => exact absurd rfl hne
    | cons c0 rest0 => exact ⟨c0, rest0, rfl⟩
  constructor
  · intro hbad
    have := collectColumnValues_error target (c0 :: rest0) hbad
    simp [StructTextRenderer.render_compact, StructTextRenderer.init, columnsTruthy, this]
  · intro hok
    have := collectColumnValues_ok target (c0 :: rest0) hok
    simp [StructTextRenderer.render_compact, StructTextRenderer.init, columnsTruthy, this]

theorem C2_config_errors_amended_witness :
    StructTextRenderer.render_compact
        (StructTextRenderer.init (some [⟨some "a"⟩, ⟨none⟩])) ⟨"[struct foo]", 0, []⟩ =
      Except.error PyError.valueError ∧
    StructTextRenderer.render_compact
        (StructTextRenderer.init (some [⟨some "a"⟩])) ⟨"[struct foo]", 0, []⟩ =
      Except.ok (CompactResult.row [{ isNone := true, objOffset := none, reprText := "-" }]) :=
  ⟨(C2_config_errors_amended [⟨some "a"⟩, ⟨none⟩] ⟨"[struct foo]", 0, []⟩ (by simp)).1
      ⟨⟨none⟩, by simp, rfl⟩,
   (C2_config_errors_amended [⟨some "a"⟩] ⟨"[struct foo]", 0, []⟩ (by simp)).2
      (by intro c hc; simp at hc; subst hc; simp)⟩

theorem pyOr_empty_right (s : String) : pyOr s "" = s := by
  by_cases h : s = "" <;> simp [pyOr, h]

theorem String_mk_data (s : String) : String.mk s.data = s := by
  cases s; rfl

/-- C8: for every string containing an embedded NUL byte, the full render is
the sub-string before the first NUL byte, everything after the first NUL is
discarded, and the value and compact renders are the full render. -/
theorem C8_string_stops_at_nul (s : String) (_h : nulChar ∈ s.data) :
    StringTextRenderer.render_full s =
      Cell.ofText (String.mk (s.data.takeWhile (fun c => c != nulChar))) ∧
    StringTextRenderer.render_value s = StringTextRenderer.render_full s ∧
    StringTextRenderer.render_compact s = StringTextRenderer.render_full s := by
  refine ⟨?_, rfl, rfl⟩
  unfold StringTextRenderer.render_full
  rw [pySplitCore_head nulChar s.data []]
  simp only [List.reverse_nil, List.nil_append]
  rw [pyOr_empty_right]

theorem C8_string_stops_at_nul_witness :
    nulChar ∈ "abc\x00def".data ∧
    StringTextRenderer.render_full "abc\x00def" = Cell.ofText "abc" ∧
    StringTextRenderer.render_value "abc\x00def" = StringTextRenderer.render_full "abc\x00def" ∧
    StringTextRenderer.render_compact "abc\x00def" = StringTextRenderer.render_full "abc\x00def" :=
  ⟨by decide,
   (C8_string_stops_at_nul "abc\x00def" (by decide)).1,
   (C8_string_stops_at_nul "abc\x00def" (by decide)).2.1,
   (C8_string_stops_at_nul "abc\x00def" (by decide)).2.2⟩

theorem pySplitLines_no_newline (s : String) (h : ∀ c ∈ s.data, c ≠ '\n') :
    pySplitLines s = if s = "" then [] else [s] := by
  unfold pySplitLines
  rw [splitLinesCore_no_newline s.data [] h]
  by_cases hs : s = ""
  · subst hs; simp
  · have hd : s.data ≠ [] := by
      intro hh
      exact hs (strData_inj hh)
    simp [hs, hd, String_mk_data]

/-- C7 counterexample: a flags value with no flag set has the empty string as
its full-render text, which is not longer than 40 characters, yet its compact
render is the dash placeholder rather than the unchanged full render: the
claim that full renders of 40 characters or fewer pass through compact
rendering unchanged is false at this input. -/
theorem C7_flags_compact_counterexample :
    pyLen (FlagsTextRenderer.fullText 0 []) ≤ 40 ∧
    FlagsTextRenderer.render_compact 0 [] ≠
      Cell.ofText (FlagsTextRenderer.fullText 0 []) := by
  constructor <;> decide

/-- C7 amended: for a flags value whose full-render text is free of newline
characters (always the case for ordinary flag names), compact rendering maps
the empty full render to the dash placeholder, elides a full render longer
than 40 characters to its first 39 characters followed by a single ellipsis
character, and passes any other full render through unchanged. -/
theorem C7_flags_compact_amended (value : Nat) (maskmap : List (String × Nat))
    (hnl : ∀ c ∈ (FlagsTextRenderer.fullText value maskmap).data, c ≠ '\n') :
    (FlagsTextRenderer.fullText value maskmap = "" →
      FlagsTextRenderer.render_compact value maskmap = Cell.ofText "-") ∧
    (40 < pyLen (FlagsTextRenderer.fullText value maskmap) →
      FlagsTextRenderer.render_compact value maskmap =
        Cell.ofText (pyTake 39 (FlagsTextRenderer.fullText value maskmap) ++ "…")) ∧
    (FlagsTextRenderer.fullText value maskmap ≠ "" →
      pyLen (FlagsTextRenderer.fullText value maskmap) ≤ 40 →
      FlagsTextRenderer.render_compact value maskmap =
        Cell.ofText (FlagsTextRenderer.fullText value maskmap)) := by
  have hsplit := pySplitLines_no_newline _ hnl
  refine ⟨?_, ?_, ?_⟩
  · intro h0
    unfold FlagsTextRenderer.render_compact FlagsTextRenderer.render_full
    rw [h0]
    rfl
  · intro hlen
    have h0 : FlagsTextRenderer.fullText value maskmap ≠ "" := by
      intro he
      rw [he] at hlen
      simp [pyLen] at hlen
    simp [FlagsTextRenderer.render_compact, FlagsTextRenderer.render_full, Cell.ofText,
      hsplit, h0, hlen]
  · intro h0 hle
    simp [FlagsTextRenderer.render_compact, FlagsTextRenderer.render_full, Cell.ofText,
      hsplit, h0, not_lt.mpr hle]

theorem C7_flags_compact_amended_witness :
    40 < pyLen (FlagsTextRenderer.fullText 1
      [("ABCDEFGHIJKLMNOPQRSTUVWXYZABCDEFGHIJKLMNOPQRS", 1)]) ∧
    FlagsTextRenderer.render_compact 1
        [("ABCDEFGHIJKLMNOPQRSTUVWXYZABCDEFGHIJKLMNOPQRS", 1)] =
      Cell.ofText (pyTake 39 (FlagsTextRenderer.fullText 1
        [("ABCDEFGHIJKLMNOPQRSTUVWXYZABCDEFGHIJKLMNOPQRS", 1)]) ++ "…") :=
  ⟨by decide,
   (C7_flags_compact_amended 1 [("ABCDEFGHIJKLMNOPQRSTUVWXYZABCDEFGHIJKLMNOPQRS", 1)]
     (by decide)).2.1 (by decide)⟩

theorem itemLe_fst {a b : String × Nat} (h : itemLe a b) : strLe a.1 b.1 := by
  have h2 : strLt a.1 b.1 ∨ (a.1 = b.1 ∧ a.2 ≤ b.2) := h
  rcases h2 with h3 | ⟨e, _⟩
  · exact Or.inl h3
  · exact Or.inr e

theorem fieldLe_fst {a b : Int × String × String} (h : fieldLe a b) : a.1 ≤ b.1 := by
  have h2 : a.1 < b.1 ∨ (a.1 = b.1 ∧ strPairLe a.2 b.2) := h
  rcases h2 with h3 | ⟨e, _⟩
  · exact le_of_lt h3
  · exact le_of_eq e

/-- C5: the full render of a struct is built from the sorted field list; the
relative member offsets appear in non-decreasing order, and the rendered names
are a permutation of the member table, so no member is omitted, the
undecodable ones included: by construction the undecoded form of a member
whose decoded value is the null sentinel is substituted instead of raising. -/
theorem C5_struct_full_sorted_complete (target : StructTarget) :
    StructTextRenderer.render_full target =
      Cell.ofText (target.reprText ++ "\n" ++
        String.intercalate "\n"
          ((structFieldsSorted target.objOffset target.members).map
            (structFormatField (structWidthName target.members))) ++ "\n") ∧
    List.Chain' (· ≤ ·)
      ((structFieldsSorted target.objOffset target.members).map (fun f => f.1)) ∧
    ((structFieldsSorted target.objOffset target.members).map (fun f => f.2.1)).Perm
      (target.members.map (fun m => m.name)) := by
  refine ⟨rfl, ?_, ?_⟩
  · have hs : List.Sorted fieldLe (structFieldsSorted target.objOffset target.members) :=
      List.sorted_insertionSort fieldLe _
    have hp := List.Pairwise.map (fun f : Int × String × String => f.1)
      (fun a b hab => fieldLe_fst hab) hs
    exact hp.chain'
  · have hperm :=
      (List.perm_insertionSort fieldLe
        (target.members.map (structField target.objOffset))).map
          (fun f : Int × String × String => f.2.1)
    rw [List.map_map] at hperm
    exact hperm

theorem maskmap_key_unique :
    ∀ (l : List (String × Nat)), (l.map Prod.fst).Nodup →
      ∀ k v w, (k, v) ∈ l → (k, w) ∈ l → v = w := by
  intro l
  induction l with
  | nil => intro _ k v w hv _; exact absurd hv (List.not_mem_nil _)
  | cons x t ih =>
    intro hnd k v w hv hw
    rw [List.map_cons, List.nodup_cons] at hnd
    obtain ⟨hx, hnd2⟩ := hnd
    rcases List.mem_cons.mp hv with heq1 | hv2
    · rcases List.mem_cons.mp hw with heq2 | hw2
      · rw [← heq1] at heq2
        injection heq2 with h1 h2
        exact h2.symm
      · exfalso
        apply hx
        have hx1 : x.1 = k := by rw [← heq1]
        rw [hx1]
        exact List.mem_map_of_mem Prod.fst hw2
    · rcases List.mem_cons.mp hw with heq2 | hw2
      · exfalso
        apply hx
        have hx1 : x.1 = k := by rw [← heq2]
        rw [hx1]
        exact List.mem_map_of_mem Prod.fst hv2
      · exact ih hnd2 k v w hv2 hw2

/-- C6: the full render of a flags value is the comma-joined flag name list;
that list is sorted by flag name, contains a defined name exactly when the
bitwise AND of the value with its mask is nonzero, and contains nothing
outside the named masks of the flag definition. -/
theorem C6_flags_full_name_selection (value : Nat) (maskmap : List (String × Nat))
    (hnodup : (maskmap.map Prod.fst).Nodup) :
    FlagsTextRenderer.render_full value maskmap =
      Cell.ofText (String.intercalate ", " (flagNames value maskmap)) ∧
    List.Chain' strLe (flagNames value maskmap) ∧
    (∀ name mask, (name, mask) ∈ maskmap →
      (name ∈ flagNames value maskmap ↔ value &&& mask ≠ 0)) ∧
    (∀ name ∈ flagNames value maskmap,
      ∃ mask, (name, mask) ∈ maskmap ∧ value &&& mask ≠ 0) := by
  refine ⟨rfl, ?_, ?_, ?_⟩
  · have hs : List.Sorted itemLe (flagItems maskmap) :=
      List.sorted_insertionSort itemLe maskmap
    have hf : List.Pairwise itemLe
        ((flagItems maskmap).filter (fun kv => (value &&& kv.2) != 0)) :=
      List.Pairwise.filter _ hs
    have hm := List.Pairwise.map (Prod.fst : String × Nat → String)
      (fun a b hab => itemLe_fst hab) hf
    exact hm.chain'
  · intro name mask hmem
    constructor
    · intro hin
      obtain ⟨⟨k1, k2⟩, hkvf, hk⟩ := List.mem_map.mp hin
      have hk1 : k1 = name := hk
      subst hk1
      have hin_mm : (k1, k2) ∈ maskmap :=
        (List.perm_insertionSort itemLe maskmap).mem_iff.mp (List.mem_of_mem_filter hkvf)
      have heq : k2 = mask := maskmap_key_unique maskmap hnodup k1 k2 mask hin_mm hmem
      subst heq
      simpa using List.of_mem_filter hkvf
    · intro hne
      apply List.mem_map.mpr
      refine ⟨(name, mask), List.mem_filter.mpr ⟨?_, ?_⟩, rfl⟩
      · exact (List.perm_insertionSort itemLe maskmap).mem_iff.mpr hmem
      · simpa using hne
  · intro name hin
    obtain ⟨⟨k1, k2⟩, hkvf, hk⟩ := List.mem_map.mp hin
    have hk1 : k1 = name := hk
    subst hk1
    refine ⟨k2, ?_, ?_⟩
    · exact (List.perm_insertionSort itemLe maskmap).mem_iff.mp (List.mem_of_mem_filter hkvf)
    · simpa using List.of_mem_filter hkvf

theorem C6_flags_full_name_selection_witness :
    ((([("B", 2), ("A", 1)] : List (String × Nat)).map Prod.fst).Nodup) ∧
    ("A", 1) ∈ ([("B", 2), ("A", 1)] : List (String × Nat)) ∧
    "A" ∈ flagNames 3 [("B", 2), ("A", 1)] ∧
    FlagsTextRenderer.render_full 3 [("B", 2), ("A", 1)] =
      Cell.ofText (String.intercalate ", " (flagNames 3 [("B", 2), ("A", 1)])) := by
  refine ⟨by decide, by decide, ?_,
    (C6_flags_full_name_selection 3 [("B", 2), ("A", 1)] (by decide)).1⟩
  exact ((C6_flags_full_name_selection 3 [("B", 2), ("A", 1)] (by decide)).2.2.1
    "A" 1 (by decide)).mpr (by decide)
